import Mathlib

/-!
Shallow embedding of `src/primes/include/socket.hpp` (namespace `net`):
the socket handle (`net::socket`), the free-standing syscall wrappers
(`net::socket_ops`), the error type (`net::network_exception`) and the
buffered stream adapter (`net::socket_stream`).

Interaction with the operating system is modelled by explicit
environments: every syscall attempt consumes one `syscall_result`
(the return value of the syscall together with the ambient `errno` at
that moment), and side-effecting teardown operations are modelled as
event traces (`ev`).  Byte buffers are `List Nat`.
-/

namespace Net

/-- `net::network_exception`: the single error type.  Its `ret` field is
the ambient `errno` captured at construction time. -/
structure network_exception where
  ret : Int
  deriving DecidableEq

/-- The outcome the operating system gives to one syscall attempt: the
syscall's return value and the value of `errno` right after it. -/
structure syscall_result where
  ret : Int
  errno : Int
  deriving DecidableEq

/-- How `::shutdown` is asked to shut a descriptor down.  The code only
ever uses `SHUT_RDWR` (both directions). -/
inductive shutdown_how where
  | rd
  | wr
  | rdwr
  deriving DecidableEq

/-- Observable OS-level side effects of teardown paths. -/
inductive ev where
  /-- `::shutdown(fd, how)`. -/
  | shutdown (fd : Int) (how : shutdown_how)
  /-- `::close(fd)`: the descriptor number is released. -/
  | close_fd (fd : Int)
  /-- Destruction of the `__gnu_cxx::stdio_filebuf` bound to `fd`
  (flushes and releases its reference to the descriptor). -/
  | fbuf_destroy (fd : Int)
  deriving DecidableEq

/-- `socket_ops::shutdown(int fd)`: `::shutdown(fd, SHUT_RDWR)`. -/
def socket_ops.shutdown_ev (fd : Int) : List ev :=
  [ev.shutdown fd shutdown_how.rdwr]

/-- `socket_ops::close(int fd)`: `shutdown(fd)` then `::close(fd)`. -/
def socket_ops.close_ev (fd : Int) : List ev :=
  socket_ops.shutdown_ev fd ++ [ev.close_fd fd]

/-- `net::socket`: an `int sock` descriptor (sentinel `-1`) and a
`uint16_t portno`. -/
structure socket where
  sock : Int
  portno : Nat
  deriving DecidableEq

/-- `socket(int fd)`: wraps a descriptor; `portno = 0; sock = fd;`. -/
def socket.from_fd (fd : Int) : socket :=
  { sock := fd, portno := 0 }

/-- `socket(socket&& rhs)`: `sock = -1; std::swap(rhs.sock, sock);`.
Only `sock` is swapped; the destination's `portno` is left
uninitialized, modelled by the arbitrary value `junk`.  Returns the
newly constructed socket and the moved-from `rhs`. -/
def socket.move (rhs : socket) (junk : Nat) : socket × socket :=
  ({ sock := rhs.sock, portno := junk }, { sock := -1, portno := rhs.portno })

/-- `~socket()`: `if (sock >= 0) socket_ops::close(sock); sock = -1;`.
Returns the emitted OS events and the final field state. -/
def socket.destroy (s : socket) : List ev × socket :=
  ((if 0 ≤ s.sock then socket_ops.close_ev s.sock else []),
   { s with sock := -1 })

/-- `socket::close()`: `socket_ops::shutdown(sock);` — the descriptor
field itself is not touched.  Returns the emitted events and the state. -/
def socket.close_op (s : socket) : List ev × socket :=
  (socket_ops.shutdown_ev s.sock, s)

/-- Environment for one `socket::connect` call: the result of
`gethostbyname` (`none` = resolution failed, `some` = the resolved
address), the ambient errno then, and the `::connect` return with its
errno. -/
structure connect_env where
  resolved : Option Unit
  resolve_errno : Int
  connect_ret : Int
  connect_errno : Int

/-- `socket::connect(const char *hostname, uint16_t port)`:
`portno = port;` first, then `gethostbyname` (throw on `nullptr`),
then `::connect` (throw on negative return).  Returns the field state
at exit (normal or exceptional) and the outcome. -/
def socket.connect (s : socket) (hostname : String) (port : Nat)
    (env : connect_env) : socket × Except network_exception Unit :=
  let s' := { s with portno := port % 65536 }
  match env.resolved with
  | none => (s', Except.error ⟨env.resolve_errno⟩)
  | some _ =>
    if env.connect_ret < 0 then (s', Except.error ⟨env.connect_errno⟩)
    else (s', Except.ok ())

/-- `socket::accept()`: `::accept` returns `ret` (with errno `e`);
a negative return throws, otherwise the descriptor is wrapped via the
`socket(int)` constructor. -/
def socket.accept (s : socket) (ret : Int) (e : Int) :
    Except network_exception socket :=
  if ret < 0 then Except.error ⟨e⟩ else Except.ok (socket.from_fd ret)

/-- `socket::send(const char *buffer, size_t size)`: one
`socket_ops::send` attempt whose syscall outcome is `r`; a return
`<= 0` throws `network_exception` (capturing the errno), otherwise the
positive byte count is returned. -/
def socket.send (s : socket) (buffer : List Nat) (size : Nat)
    (r : syscall_result) : Except network_exception Int :=
  if r.ret ≤ 0 then Except.error ⟨r.errno⟩ else Except.ok r.ret

/-- `socket::recv(char *buffer, size_t size)`: one `socket_ops::recv`
attempt whose syscall outcome is `r`; a return `<= 0` throws
`network_exception`, otherwise the positive byte count is returned. -/
def socket.recv (s : socket) (buffer : List Nat) (size : Nat)
    (r : syscall_result) : Except network_exception Int :=
  if r.ret ≤ 0 then Except.error ⟨r.errno⟩ else Except.ok r.ret

/-- Result of running one of the `*_all` loops against a finite list of
syscall outcomes: the loop finished normally (`done`, carrying its
value and the number of attempts performed), an attempt threw
(`failed`, with the exception and the number of attempts performed), or
the outcome list was exhausted with the loop still running (`stuck`). -/
inductive transfer_result (α : Type) where
  | done (val : α) (attempts : Nat)
  | failed (e : network_exception) (attempts : Nat)
  | stuck
  deriving DecidableEq

/-- Raw-memory write: store the bytes `chunk` into `buf` starting at
offset `off` (what `recv(buffer + off, ...)` does to the caller's
buffer when it receives `chunk`). -/
def list_write (buf : List Nat) (off : Nat) (chunk : List Nat) : List Nat :=
  buf.take off ++ chunk ++ buf.drop (off + chunk.length)

/-- `socket::send_all(const char *buffer, size_t size)`:
`size_t off = 0; while (off != size) off += send(buffer + off, size - off);`.
Each iteration consumes one syscall outcome via `socket.send`.  The
bytes handed to a successful attempt returning `n` are the `n` bytes at
`buffer + off`; the `done` value is their concatenation (the byte
sequence put on the wire). -/
def socket.send_all_go (s : socket) (buffer : List Nat) (size : Nat) :
    List syscall_result → Nat → transfer_result (List Nat)
  | rs, off =>
    if off = size then transfer_result.done [] 0
    else
      match rs with
      | [] => transfer_result.stuck
      | r :: rs' =>
        match socket.send s (buffer.drop off) (size - off) r with
        | Except.error e => transfer_result.failed e 1
        | Except.ok n =>
          match socket.send_all_go s buffer size rs' (off + n.toNat) with
          | transfer_result.done w a =>
            transfer_result.done ((buffer.drop off).take n.toNat ++ w) (a + 1)
          | transfer_result.failed e a => transfer_result.failed e (a + 1)
          | transfer_result.stuck => transfer_result.stuck

/-- `socket::send_all` run from `off = 0`. -/
def socket.send_all (s : socket) (buffer : List Nat) (size : Nat)
    (rs : List syscall_result) : transfer_result (List Nat) :=
  socket.send_all_go s buffer size rs 0

/-- `socket::recv_all(char *buffer, size_t size)`:
`size_t off = 0; while (off != size) off += recv(buffer + off, size - off);`.
Each iteration consumes one syscall outcome via `socket.recv`; a
successful attempt returning `n` takes the next `n` bytes off the
`wire` and writes them into the caller's buffer at offset `off`.  The
`done` value is the final content of the caller's buffer. -/
def socket.recv_all_go (s : socket) (size : Nat) :
    List syscall_result → List Nat → Nat → List Nat → transfer_result (List Nat)
  | rs, wire, off, buf =>
    if off = size then transfer_result.done buf 0
    else
      match rs with
      | [] => transfer_result.stuck
      | r :: rs' =>
        match socket.recv s (buf.drop off) (size - off) r with
        | Except.error e => transfer_result.failed e 1
        | Except.ok n =>
          match socket.recv_all_go s size rs' (wire.drop n.toNat)
              (off + n.toNat) (list_write buf off (wire.take n.toNat)) with
          | transfer_result.done b a => transfer_result.done b (a + 1)
          | transfer_result.failed e a => transfer_result.failed e (a + 1)
          | transfer_result.stuck => transfer_result.stuck

/-- `socket::recv_all` run from `off = 0`: `wire` is the byte stream
the peer has put on the connection and `buf` the caller's buffer. -/
def socket.recv_all (s : socket) (size : Nat) (rs : List syscall_result)
    (wire : List Nat) (buf : List Nat) : transfer_result (List Nat) :=
  socket.recv_all_go s size rs wire 0 buf

/-- `net::socket_stream`: owns a `net::socket` (field `sock`); its
`stdio_filebuf` and `std::iostream` carry no further modelled state
beyond the descriptor the filebuf is bound to. -/
structure socket_stream where
  sock : socket

/-- `~socket_stream()`: the destructor body runs `sock.close()` first;
then the members are destroyed in reverse declaration order
(`stream`, then `fbuf`, then `sock`): the `std::iostream` teardown has
no OS effect, the `stdio_filebuf` teardown flushes and releases the
descriptor it was bound to, and finally `~socket()` runs. -/
def socket_stream.destroy (st : socket_stream) : List ev :=
  (st.sock.close_op).1 ++ [ev.fbuf_destroy st.sock.sock] ++ (st.sock.destroy).1

/-- `frag_of ns rem`: the attempt sizes `ns` are a fragmentation of
`rem` remaining bytes into successive successful transfers — every
attempt moves at least one byte and at most the bytes still remaining,
and together they cover the `rem` bytes. -/
def frag_of : List Nat → Nat → Bool
  | [], rem => rem == 0
  | n :: ns, rem => decide (1 ≤ n) && decide (n ≤ rem) && frag_of ns (rem - n)

/-- The environment in which successive syscall attempts succeed and
transfer the listed byte counts (errno is irrelevant on success). -/
def sys_ok (ns : List Nat) : List syscall_result :=
  ns.map (fun n => { ret := (n : Int), errno := 0 })

/-- `still_running size rs off`: starting at offset `off`, every
outcome in `rs` is a successful partial transfer that leaves the
`while (off != size)` loop still running — the offset never reaches
`size` and no attempt returns `<= 0`. -/
def still_running (size : Nat) : List syscall_result → Nat → Bool
  | [], off => decide (off ≠ size)
  | r :: rs, off =>
    decide (off ≠ size) && decide (0 < r.ret) &&
      still_running size rs (off + r.ret.toNat)

/-- Writing the empty chunk leaves the buffer unchanged. -/
theorem list_write_nil (buf : List Nat) (off : Nat) :
    list_write buf off [] = buf := by
  simp [list_write]

/-- Length of a raw-memory write that stays inside the buffer. -/
theorem list_write_length (buf : List Nat) (off : Nat) (c : List Nat)
    (h : off + c.length ≤ buf.length) :
    (list_write buf off c).length = buf.length := by
  simp [list_write]
  omega

/-- Two consecutive raw-memory writes amount to writing the
concatenated chunk, provided the first write stays inside the buffer. -/
theorem list_write_append (buf : List Nat) (off : Nat) (c1 c2 : List Nat)
    (h : off + c1.length ≤ buf.length) :
    list_write (list_write buf off c1) (off + c1.length) c2 =
      list_write buf off (c1 ++ c2) := by
  have hoff : (buf.take off).length = off := by
    simp
    omega
  have hpre : ((buf.take off ++ c1)).length = off + c1.length := by
    simp
    omega
  unfold list_write
  rw [← List.append_assoc (buf.take off) c1]
  rw [List.take_left' hpre]
  rw [show off + c1.length + c2.length =
      (buf.take off ++ c1).length + c2.length by rw [hpre]]
  rw [List.drop_append c2.length, List.drop_drop]
  rw [show off + (c1 ++ c2).length = off + c1.length + c2.length by
    simp [Nat.add_assoc]]

/-- Running the `send_all` loop from offset `off` with `rem` bytes
remaining under a fragmentation `ns` of `rem` finishes, puts exactly
the `rem` bytes at `buffer + off` on the wire, and performs one attempt
per fragment. -/
theorem send_all_go_frag (s : socket) (buffer : List Nat) (ns : List Nat) :
    ∀ rem off, frag_of ns rem = true →
      socket.send_all_go s buffer (off + rem) (sys_ok ns) off =
        transfer_result.done ((buffer.drop off).take rem) ns.length := by
  induction ns with
  | nil =>
    intro rem off h
    simp [frag_of] at h
    subst h
    unfold socket.send_all_go
    simp
  | cons n ns ih =>
    intro rem off h
    simp only [frag_of, Bool.and_eq_true, decide_eq_true_eq] at h
    obtain ⟨⟨h1, h2⟩, h3⟩ := h
    unfold socket.send_all_go
    rw [if_neg (by omega)]
    show (match socket.send s (buffer.drop off) (off + rem - off)
        { ret := (n : Int), errno := 0 } with
      | Except.error e => transfer_result.failed e 1
      | Except.ok m =>
        match socket.send_all_go s buffer (off + rem) (sys_ok ns)
            (off + m.toNat) with
        | transfer_result.done w a =>
          transfer_result.done ((buffer.drop off).take m.toNat ++ w) (a + 1)
        | transfer_result.failed e a => transfer_result.failed e (a + 1)
        | transfer_result.stuck => transfer_result.stuck) =
      transfer_result.done ((buffer.drop off).take rem) (n :: ns).length
    rw [show socket.send s (buffer.drop off) (off + rem - off)
        { ret := (n : Int), errno := 0 } = Except.ok (n : Int) by
      unfold socket.send
      rw [if_neg (by simp; omega)]]
    show (match socket.send_all_go s buffer (off + rem) (sys_ok ns)
        (off + (n : Int).toNat) with
      | transfer_result.done w a =>
        transfer_result.done
          ((buffer.drop off).take (n : Int).toNat ++ w) (a + 1)
      | transfer_result.failed e a => transfer_result.failed e (a + 1)
      | transfer_result.stuck => transfer_result.stuck) =
      transfer_result.done ((buffer.drop off).take rem) (n :: ns).length
    rw [Int.toNat_ofNat]
    rw [show off + rem = (off + n) + (rem - n) by omega]
    rw [ih (rem - n) (off + n) h3]
    have htake : (buffer.drop off).take rem =
        (buffer.drop off).take n ++ (buffer.drop (off + n)).take (rem - n) := by
      rw [show rem = n + (rem - n) by omega, List.take_add, List.drop_drop]
      simp
    rw [htake]
    simp

/-- Running the `recv_all` loop from offset `off` with `rem` bytes
remaining under a fragmentation `ms` of `rem` finishes, writes the next
`rem` wire bytes into the buffer at offset `off`, and performs one
attempt per fragment. -/
theorem recv_all_go_frag (s : socket) (ms : List Nat) :
    ∀ rem off wire buf, frag_of ms rem = true → rem ≤ wire.length →
      off + rem ≤ buf.length →
      socket.recv_all_go s (off + rem) (sys_ok ms) wire off buf =
        transfer_result.done (list_write buf off (wire.take rem)) ms.length := by
  induction ms with
  | nil =>
    intro rem off wire buf h _ _
    simp [frag_of] at h
    subst h
    unfold socket.recv_all_go
    simp [list_write_nil]
  | cons m ms ih =>
    intro rem off wire buf h hwire hbuf
    simp only [frag_of, Bool.and_eq_true, decide_eq_true_eq] at h
    obtain ⟨⟨h1, h2⟩, h3⟩ := h
    unfold socket.recv_all_go
    rw [if_neg (by omega)]
    show (match socket.recv s (buf.drop off) (off + rem - off)
        { ret := (m : Int), errno := 0 } with
      | Except.error e => transfer_result.failed e 1
      | Except.ok n =>
        match socket.recv_all_go s (off + rem) (sys_ok ms)
            (wire.drop n.toNat) (off + n.toNat)
            (list_write buf off (wire.take n.toNat)) with
        | transfer_result.done b a => transfer_result.done b (a + 1)
        | transfer_result.failed e a => transfer_result.failed e (a + 1)
        | transfer_result.stuck => transfer_result.stuck) =
      transfer_result.done (list_write buf off (wire.take rem))
        (m :: ms).length
    rw [show socket.recv s (buf.drop off) (off + rem - off)
        { ret := (m : Int), errno := 0 } = Except.ok (m : Int) by
      unfold socket.recv
      rw [if_neg (by simp; omega)]]
    show (match socket.recv_all_go s (off + rem) (sys_ok ms)
        (wire.drop (m : Int).toNat) (off + (m : Int).toNat)
        (list_write buf off (wire.take (m : Int).toNat)) with
      | transfer_result.done b a => transfer_result.done b (a + 1)
      | transfer_result.failed e a => transfer_result.failed e (a + 1)
      | transfer_result.stuck => transfer_result.stuck) =
      transfer_result.done (list_write buf off (wire.take rem))
        (m :: ms).length
    rw [Int.toNat_ofNat]
    have hlen : (wire.take m).length = m := by
      simp
      omega
    have hwb : off + (wire.take m).length ≤ buf.length := by
      rw [hlen]
      omega
    rw [show off + rem = (off + m) + (rem - m) by omega]
    rw [ih (rem - m) (off + m) (wire.drop m)
      (list_write buf off (wire.take m)) h3
      (by simp; omega)
      (by rw [list_write_length buf off (wire.take m) hwb]; omega)]
    rw [show off + m = off + (wire.take m).length by rw [hlen]]
    rw [list_write_append buf off (wire.take m)
      ((wire.drop m).take (rem - m)) hwb]
    rw [show wire.take m ++ (wire.drop m).take (rem - m) =
        wire.take rem by
      rw [show rem = m + (rem - m) by omega, List.take_add]
      simp]
    simp

/-- If one attempt throws, the `send_all` loop aborts right there with
that exception: the attempts performed are exactly the earlier
still-running partial successes plus the failing one, regardless of any
outcomes the environment would have supplied afterwards. -/
theorem send_all_go_abort (s : socket) (buffer : List Nat) (size : Nat)
    (r : syscall_result) (post : List syscall_result) (hr : r.ret ≤ 0) :
    ∀ pre off, still_running size pre off = true →
      socket.send_all_go s buffer size (pre ++ r :: post) off =
        transfer_result.failed ⟨r.errno⟩ (pre.length + 1) := by
  intro pre
  induction pre with
  | nil =>
    intro off h
    simp only [still_running, decide_eq_true_eq] at h
    unfold socket.send_all_go
    rw [if_neg h]
    show (match socket.send s (buffer.drop off) (size - off) r with
      | Except.error e => transfer_result.failed e 1
      | Except.ok n =>
        match socket.send_all_go s buffer size post (off + n.toNat) with
        | transfer_result.done w a =>
          transfer_result.done ((buffer.drop off).take n.toNat ++ w) (a + 1)
        | transfer_result.failed e a => transfer_result.failed e (a + 1)
        | transfer_result.stuck => transfer_result.stuck) =
      transfer_result.failed ⟨r.errno⟩ (([] : List syscall_result).length + 1)
    rw [show socket.send s (buffer.drop off) (size - off) r =
      Except.error ⟨r.errno⟩ by unfold socket.send; rw [if_pos hr]]
    simp
  | cons q pre ih =>
    intro off h
    simp only [still_running, Bool.and_eq_true, decide_eq_true_eq] at h
    obtain ⟨⟨hne, hq⟩, hrest⟩ := h
    unfold socket.send_all_go
    rw [if_neg hne]
    show (match socket.send s (buffer.drop off) (size - off) q with
      | Except.error e => transfer_result.failed e 1
      | Except.ok n =>
        match socket.send_all_go s buffer size (pre ++ r :: post)
            (off + n.toNat) with
        | transfer_result.done w a =>
          transfer_result.done ((buffer.drop off).take n.toNat ++ w) (a + 1)
        | transfer_result.failed e a => transfer_result.failed e (a + 1)
        | transfer_result.stuck => transfer_result.stuck) =
      transfer_result.failed ⟨r.errno⟩ ((q :: pre).length + 1)
    rw [show socket.send s (buffer.drop off) (size - off) q =
      Except.ok q.ret by unfold socket.send; rw [if_neg (by omega)]]
    show (match socket.send_all_go s buffer size (pre ++ r :: post)
        (off + q.ret.toNat) with
      | transfer_result.done w a =>
        transfer_result.done
          ((buffer.drop off).take q.ret.toNat ++ w) (a + 1)
      | transfer_result.failed e a => transfer_result.failed e (a + 1)
      | transfer_result.stuck => transfer_result.stuck) =
      transfer_result.failed ⟨r.errno⟩ ((q :: pre).length + 1)
    rw [ih (off + q.ret.toNat) hrest]
    simp

/-- If one attempt throws, the `recv_all` loop aborts right there with
that exception: the attempts performed are exactly the earlier
still-running partial successes plus the failing one, regardless of any
outcomes the environment would have supplied afterwards. -/
theorem recv_all_go_abort (s : socket) (size : Nat)
    (r : syscall_result) (post : List syscall_result) (hr : r.ret ≤ 0) :
    ∀ pre off wire buf, still_running size pre off = true →
      socket.recv_all_go s size (pre ++ r :: post) wire off buf =
        transfer_result.failed ⟨r.errno⟩ (pre.length + 1) := by
  intro pre
  induction pre with
  | nil =>
    intro off wire buf h
    simp only [still_running, decide_eq_true_eq] at h
    unfold socket.recv_all_go
    rw [if_neg h]
    show (match socket.recv s (buf.drop off) (size - off) r with
      | Except.error e => transfer_result.failed e 1
      | Except.ok n =>
        match socket.recv_all_go s size post (wire.drop n.toNat)
            (off + n.toNat) (list_write buf off (wire.take n.toNat)) with
        | transfer_result.done b a => transfer_result.done b (a + 1)
        | transfer_result.failed e a => transfer_result.failed e (a + 1)
        | transfer_result.stuck => transfer_result.stuck) =
      transfer_result.failed ⟨r.errno⟩ (([] : List syscall_result).length + 1)
    rw [show socket.recv s (buf.drop off) (size - off) r =
      Except.error ⟨r.errno⟩ by unfold socket.recv; rw [if_pos hr]]
    simp
  | cons q pre ih =>
    intro off wire buf h
    simp only [still_running, Bool.and_eq_true, decide_eq_true_eq] at h
    obtain ⟨⟨hne, hq⟩, hrest⟩ := h
    unfold socket.recv_all_go
    rw [if_neg hne]
    show (match socket.recv s (buf.drop off) (size - off) q with
      | Except.error e => transfer_result.failed e 1
      | Except.ok n =>
        match socket.recv_all_go s size (pre ++ r :: post)
            (wire.drop n.toNat) (off + n.toNat)
            (list_write buf off (wire.take n.toNat)) with
        | transfer_result.done b a => transfer_result.done b (a + 1)
        | transfer_result.failed e a => transfer_result.failed e (a + 1)
        | transfer_result.stuck => transfer_result.stuck) =
      transfer_result.failed ⟨r.errno⟩ ((q :: pre).length + 1)
    rw [show socket.recv s (buf.drop off) (size - off) q =
      Except.ok q.ret by unfold socket.recv; rw [if_neg (by omega)]]
    show (match socket.recv_all_go s size (pre ++ r :: post)
        (wire.drop q.ret.toNat) (off + q.ret.toNat)
        (list_write buf off (wire.take q.ret.toNat)) with
      | transfer_result.done b a => transfer_result.done b (a + 1)
      | transfer_result.failed e a => transfer_result.failed e (a + 1)
      | transfer_result.stuck => transfer_result.stuck) =
      transfer_result.failed ⟨r.errno⟩ ((q :: pre).length + 1)
    rw [ih (off + q.ret.toNat) (wire.drop q.ret.toNat)
      (list_write buf off (wire.take q.ret.toNat)) hrest]
    simp

/-- C3: a single send attempt (`socket::send`) and a single receive
attempt (`socket::recv`) throw `network_exception` exactly when the
underlying syscall result is `<= 0` (a zero return is treated like an
error), and otherwise return that strictly positive byte count. -/
theorem C3_single_attempt_error_iff (s : socket) (buffer : List Nat)
    (size : Nat) (r : syscall_result) :
    ((socket.send s buffer size r = Except.error ⟨r.errno⟩) ↔ r.ret ≤ 0) ∧
    ((socket.send s buffer size r = Except.ok r.ret) ↔ 0 < r.ret) ∧
    ((socket.recv s buffer size r = Except.error ⟨r.errno⟩) ↔ r.ret ≤ 0) ∧
    ((socket.recv s buffer size r = Except.ok r.ret) ↔ 0 < r.ret) := by
  unfold socket.send socket.recv
  split <;> rename_i hle <;> simp_all

/-- C6: moving a `socket` swaps the sentinel `-1` into the source's
descriptor and the real descriptor into the destination (only one of
the two holds the descriptor afterwards), and destroying the
moved-from socket emits no OS calls. -/
theorem C6_move_transfers_ownership (rhs : socket) (junk : Nat) :
    (socket.move rhs junk).1.sock = rhs.sock ∧
    (socket.move rhs junk).2.sock = -1 ∧
    ((socket.move rhs junk).2.destroy).1 = [] := by
  refine ⟨rfl, rfl, ?_⟩
  simp [socket.move, socket.destroy]

/-- C7: `socket::send_all` with `size = 0` finishes immediately: no
single send attempt is performed (zero attempts, no syscall outcome is
consumed), and no error is raised, for every buffer and every
environment. -/
theorem C7_send_all_size_zero (s : socket) (buffer : List Nat)
    (rs : List syscall_result) :
    socket.send_all s buffer 0 rs = transfer_result.done [] 0 := by
  unfold socket.send_all socket.send_all_go
  simp

/-- C8: `socket::close` shuts the descriptor down in both transfer
directions (`SHUT_RDWR`) but releases nothing: the whole field state —
in particular the descriptor, which stays distinct from the sentinel —
is unchanged, and no OS-level `close` of any descriptor occurs. -/
theorem C8_close_shuts_down_both_keeps_fd (s : socket) (h : 0 ≤ s.sock) :
    (s.close_op).2 = s ∧
    (s.close_op).2.sock ≠ -1 ∧
    (s.close_op).1 = [ev.shutdown s.sock shutdown_how.rdwr] ∧
    ∀ fd, ev.close_fd fd ∉ (s.close_op).1 := by
  refine ⟨rfl, ?_, rfl, ?_⟩
  · show s.sock ≠ -1
    omega
  · intro fd
    simp [socket.close_op, socket_ops.shutdown_ev]

/-- C8 witness: `close` on the concrete socket `{sock := 4, portno := 9}`. -/
theorem C8_close_shuts_down_both_keeps_fd_witness :
    let s : socket := { sock := 4, portno := 9 }
    (s.close_op).2 = s ∧
    (s.close_op).2.sock ≠ -1 ∧
    (s.close_op).1 = [ev.shutdown s.sock shutdown_how.rdwr] ∧
    ∀ fd, ev.close_fd fd ∉ (s.close_op).1 :=
  C8_close_shuts_down_both_keeps_fd { sock := 4, portno := 9 } (by decide)

/-- C9: `socket::connect` stores the requested port in `portno` before
resolving the hostname or calling `::connect`; hence whenever it fails
with `network_exception`, the handle's remembered port has already been
updated to the requested port while the descriptor field is unchanged. -/
theorem C9_connect_records_port_before_failing (s : socket)
    (hostname : String) (port : Nat) (env : connect_env)
    (hport : port < 65536) (e : network_exception)
    (herr : (socket.connect s hostname port env).2 = Except.error e) :
    (socket.connect s hostname port env).1.portno = port ∧
    (socket.connect s hostname port env).1.sock = s.sock := by
  unfold socket.connect
  constructor <;> rcases env.resolved with _ | _ <;>
    simp [Nat.mod_eq_of_lt hport] <;> split <;> simp [Nat.mod_eq_of_lt hport]

/-- C9 witness: a connect whose hostname resolution fails (errno 2). -/
theorem C9_connect_records_port_before_failing_witness :
    let s : socket := { sock := 3, portno := 0 }
    let env : connect_env :=
      { resolved := none, resolve_errno := 2, connect_ret := 0, connect_errno := 0 }
    (socket.connect s "unknown.host" 7777 env).1.portno = 7777 ∧
    (socket.connect s "unknown.host" 7777 env).1.sock = 3 :=
  C9_connect_records_port_before_failing
    { sock := 3, portno := 0 } "unknown.host" 7777
    { resolved := none, resolve_errno := 2, connect_ret := 0, connect_errno := 0 }
    (by decide) ⟨2⟩ rfl

/-- C10: every socket returned by `socket::accept` has `portno = 0`,
whatever the listening socket's own port is, because the wrapping
`socket(int)` constructor always initializes `portno` to `0`. -/
theorem C10_accept_port_zero (s : socket) (ret : Int) (e : Int) (c : socket)
    (h : socket.accept s ret e = Except.ok c) : c.portno = 0 := by
  unfold socket.accept at h
  split at h
  · exact absurd h (by simp)
  · cases h
    rfl

/-- C10 witness: accepting descriptor 6 on a listener bound to port 8080. -/
theorem C10_accept_port_zero_witness :
    (socket.from_fd 6).portno = 0 :=
  C10_accept_port_zero { sock := 4, portno := 8080 } 6 0 (socket.from_fd 6) rfl

/-- C1 counterexample: for the concrete stream over descriptor `5`, the
destruction trace begins with a shutdown of the descriptor (the
destructor body's `sock.close()`), and only then tears the buffering
adapter down — so it is not the case that every shutdown event on the
descriptor comes after the adapter's teardown event. -/
theorem C1_counterexample :
    (socket_stream.destroy ⟨socket.from_fd 5⟩).get? 0 =
      some (ev.shutdown 5 shutdown_how.rdwr) ∧
    (socket_stream.destroy ⟨socket.from_fd 5⟩).get? 1 =
      some (ev.fbuf_destroy 5) ∧
    ¬ (∀ i j : Nat,
        (socket_stream.destroy ⟨socket.from_fd 5⟩).get? i =
          some (ev.fbuf_destroy 5) →
        (socket_stream.destroy ⟨socket.from_fd 5⟩).get? j =
          some (ev.shutdown 5 shutdown_how.rdwr) → i < j) := by
  refine ⟨by decide, by decide, fun h => ?_⟩
  exact absurd (h 1 0 (by decide) (by decide)) (by decide)

/-- C1 (amended): destroying a `socket_stream` whose descriptor is
valid first shuts the descriptor down (the destructor body's explicit
`sock.close()`), then destroys the buffering adapter, and only then
runs the handle's own destructor, which shuts the descriptor down again
and performs the OS close.  So the adapter's teardown precedes the
handle destructor's shutdown and close, but the explicit shutdown in
the stream's destructor body happens before — not after — the adapter
is torn down. -/
theorem C1_stream_destroy_trace (st : socket_stream)
    (h : 0 ≤ st.sock.sock) :
    socket_stream.destroy st =
      [ev.shutdown st.sock.sock shutdown_how.rdwr,
       ev.fbuf_destroy st.sock.sock,
       ev.shutdown st.sock.sock shutdown_how.rdwr,
       ev.close_fd st.sock.sock] := by
  simp [socket_stream.destroy, socket.close_op, socket.destroy,
    socket_ops.close_ev, socket_ops.shutdown_ev, if_pos h]

/-- C1 witness: the destruction trace of the stream over descriptor 5. -/
theorem C1_stream_destroy_trace_witness :
    socket_stream.destroy ⟨socket.from_fd 5⟩ =
      [ev.shutdown 5 shutdown_how.rdwr, ev.fbuf_destroy 5,
       ev.shutdown 5 shutdown_how.rdwr, ev.close_fd 5] :=
  C1_stream_destroy_trace ⟨socket.from_fd 5⟩ (by decide)

/-- C2: round-trip fidelity.  For every `size > 0` and byte buffer of
(at least) that size, a `send_all` of `size` bytes followed by a
`recv_all` of `size` bytes on the peer reproduces the exact byte
sequence, for every fragmentation of the transfer into successful
partial sends (`ns`) and receives (`ms`): the peer's buffer ends up
holding exactly the `size` sent bytes. -/
theorem C2_round_trip (s s' : socket) (buffer buf : List Nat) (size : Nat)
    (ns ms : List Nat) (hpos : 0 < size) (hbuffer : size ≤ buffer.length)
    (hns : frag_of ns size = true) (hms : frag_of ms size = true)
    (hbuf : buf.length = size) :
    ∃ wire,
      socket.send_all s buffer size (sys_ok ns) =
        transfer_result.done wire ns.length ∧
      socket.recv_all s' size (sys_ok ms) wire buf =
        transfer_result.done (buffer.take size) ms.length := by
  refine ⟨buffer.take size, ?_, ?_⟩
  · unfold socket.send_all
    have h := send_all_go_frag s buffer ns size 0 hns
    simpa using h
  · unfold socket.recv_all
    have h1 : size ≤ (buffer.take size).length := by
      simp
      omega
    have h := recv_all_go_frag s' ms size 0 (buffer.take size) buf hms h1
      (by omega)
    simp only [Nat.zero_add] at h
    rw [h]
    have hw : ((buffer.take size).take size).length = size := by
      simp
      omega
    simp [list_write, hw, List.drop_eq_nil_of_le (le_of_eq hbuf),
      List.take_take]
    omega

/-- C2 witness: sending the bytes `[7, 8, 9]` fragmented as `2 + 1`
and receiving them fragmented as `1 + 2` reproduces `[7, 8, 9]`. -/
theorem C2_round_trip_witness :
    ∃ wire,
      socket.send_all { sock := 3, portno := 0 } [7, 8, 9] 3
          (sys_ok [2, 1]) =
        transfer_result.done wire 2 ∧
      socket.recv_all { sock := 4, portno := 0 } 3 (sys_ok [1, 2]) wire
          [0, 0, 0] =
        transfer_result.done [7, 8, 9] 2 :=
  C2_round_trip { sock := 3, portno := 0 } { sock := 4, portno := 0 }
    [7, 8, 9] [0, 0, 0] 3 [2, 1] [1, 2]
    (by decide) (by decide) (by decide) (by decide) (by decide)

/-- C4: inside `send_all` and `recv_all`, an attempt that throws aborts
the whole operation immediately with that very `network_exception`:
after a run of still-running partial successes `pre`, a failing outcome
`r` makes the loop perform exactly `pre.length + 1` attempts, whatever
outcomes (`post`) would have followed; only partial successes keep the
loop going. -/
theorem C4_failed_attempt_aborts (s s' : socket) (buffer wire buf : List Nat)
    (size : Nat) (pre post : List syscall_result) (r : syscall_result)
    (hpre : still_running size pre 0 = true) (hr : r.ret ≤ 0) :
    socket.send_all s buffer size (pre ++ r :: post) =
      transfer_result.failed ⟨r.errno⟩ (pre.length + 1) ∧
    socket.recv_all s' size (pre ++ r :: post) wire buf =
      transfer_result.failed ⟨r.errno⟩ (pre.length + 1) :=
  ⟨send_all_go_abort s buffer size r post hr pre 0 hpre,
   recv_all_go_abort s' size r post hr pre 0 wire buf hpre⟩

/-- C4 witness: after one partial success of 2 bytes out of 5, a
failing attempt (return `-1`, errno 32) aborts both loops with
`network_exception` after exactly 2 attempts, ignoring the queued
third outcome. -/
theorem C4_failed_attempt_aborts_witness :
    socket.send_all { sock := 3, portno := 0 } [1, 2, 3, 4, 5] 5
        [⟨2, 0⟩, ⟨-1, 32⟩, ⟨1, 0⟩] =
      transfer_result.failed ⟨32⟩ 2 ∧
    socket.recv_all { sock := 4, portno := 0 } 5
        [⟨2, 0⟩, ⟨-1, 32⟩, ⟨1, 0⟩] [9, 9, 9, 9, 9] [0, 0, 0, 0, 0] =
      transfer_result.failed ⟨32⟩ 2 :=
  C4_failed_attempt_aborts { sock := 3, portno := 0 }
    { sock := 4, portno := 0 } [1, 2, 3, 4, 5] [9, 9, 9, 9, 9]
    [0, 0, 0, 0, 0] 5 [⟨2, 0⟩] [⟨1, 0⟩] ⟨-1, 32⟩ (by decide) (by decide)

/-- C5: under the precondition that every attempt succeeds and
transfers between 1 byte and the bytes still remaining (`frag_of`),
`send_all` and `recv_all` terminate; on termination `send_all` has
transmitted exactly the `size` bytes of the buffer (a wire sequence of
length `size`) and `recv_all` has filled exactly the first `size`
bytes of the caller's buffer, leaving the rest unchanged. -/
theorem C5_success_runs_terminate_exactly (s s' : socket)
    (buffer wire buf : List Nat) (size : Nat) (ns ms : List Nat)
    (hns : frag_of ns size = true) (hms : frag_of ms size = true)
    (hbuffer : size ≤ buffer.length) (hwire : size ≤ wire.length)
    (hbuf : size ≤ buf.length) :
    socket.send_all s buffer size (sys_ok ns) =
      transfer_result.done (buffer.take size) ns.length ∧
    (buffer.take size).length = size ∧
    socket.recv_all s' size (sys_ok ms) wire buf =
      transfer_result.done (wire.take size ++ buf.drop size) ms.length := by
  refine ⟨?_, by simp; omega, ?_⟩
  · unfold socket.send_all
    have h := send_all_go_frag s buffer ns size 0 hns
    simpa using h
  · unfold socket.recv_all
    have h := recv_all_go_frag s' ms size 0 wire buf hms hwire (by omega)
    simp only [Nat.zero_add] at h
    rw [h]
    have hw : (wire.take size).length = size := by
      simp
      omega
    simp [list_write, hw]

/-- C5 witness: a `3 + 2` fragmentation transfers exactly 5 bytes on a
buffer of length 6: the wire carries its first 5 bytes, and the
receiving buffer of length 6 keeps its sixth byte unchanged. -/
theorem C5_success_runs_terminate_exactly_witness :
    socket.send_all { sock := 3, portno := 0 } [1, 2, 3, 4, 5, 6] 5
        (sys_ok [3, 2]) =
      transfer_result.done [1, 2, 3, 4, 5] 2 ∧
    ([1, 2, 3, 4, 5, 6].take 5).length = 5 ∧
    socket.recv_all { sock := 4, portno := 0 } 5 (sys_ok [3, 2])
        [1, 2, 3, 4, 5, 6] [0, 0, 0, 0, 0, 7] =
      transfer_result.done [1, 2, 3, 4, 5, 7] 2 :=
  C5_success_runs_terminate_exactly { sock := 3, portno := 0 }
    { sock := 4, portno := 0 } [1, 2, 3, 4, 5, 6] [1, 2, 3, 4, 5, 6]
    [0, 0, 0, 0, 0, 7] 5 [3, 2] [3, 2]
    (by decide) (by decide) (by decide) (by decide) (by decide)

end Net
